import Mathlib

/-!
Verification of the alx-polly polling application core: sanitization,
validation, rate limiting, security context / authorization guards, and the
vote integrity engine (dedup and tally).  Strings are modelled as Lean
`String` / `List Char`; JS numbers as `Nat`/`Int`; the datastore as explicit
lists threaded through the operations; `Date.now()` as an explicit `now`
argument; the process-wide rate-limit map as a function `String → Option`.
-/

namespace Polly

/-! ## Character-level string machinery

Models the pieces of JS string/regex behaviour used by the code:
`String.prototype.trim`, `replace(/[<>]/g,'')`, `replace(/javascript:/gi,'')`,
`replace(/on\w+=/gi,'')`, `slice(0,1000)`, and the tests
`/<script|javascript:|on\w+=/i` and the canonical-UUID regex.
-/

/-- JS `WhiteSpace ∪ LineTerminator` characters removed by `trim`. -/
def jsWhitespace (c : Char) : Bool :=
  c = ' ' || c = '\t' || c = '\n' || c = '\r' ||
  c.toNat = 11 || c.toNat = 12 || c.toNat = 0xA0 || c.toNat = 0xFEFF ||
  c.toNat = 0x1680 || (0x2000 ≤ c.toNat && c.toNat ≤ 0x200A) ||
  c.toNat = 0x2028 || c.toNat = 0x2029 || c.toNat = 0x202F ||
  c.toNat = 0x205F || c.toNat = 0x3000

/-- `String.prototype.trim`: drop whitespace from both ends. -/
def trimChars (l : List Char) : List Char :=
  ((l.dropWhile jsWhitespace).reverse.dropWhile jsWhitespace).reverse

/-- `replace(/[<>]/g, '')`. -/
def filterAngle (l : List Char) : List Char :=
  l.filter (fun c => !(c = '<' || c = '>'))

/-- Case-insensitive prefix match against a lowercase pattern; returns the
remainder after the matched pattern. -/
def dropPrefixCI : List Char → List Char → Option (List Char)
  | [], l => some l
  | _ :: _, [] => none
  | p :: ps, c :: cs => if c.toLower = p then dropPrefixCI ps cs else none

/-- Fuel-indexed scan removing every occurrence of the (nonempty, lowercase)
pattern `p0 :: ps`, left to right, continuing after each match.  The fuel is
only a structural-recursion device: each step consumes at least one character,
so fuel `≥` the list length never runs out. -/
def stripSubCIAux (p0 : Char) (ps : List Char) : Nat → List Char → List Char
  | _, [] => []
  | 0, l => l
  | fuel + 1, c :: cs =>
    match dropPrefixCI (p0 :: ps) (c :: cs) with
    | some r => stripSubCIAux p0 ps fuel r
    | none => c :: stripSubCIAux p0 ps fuel cs

/-- One global-regex pass removing every occurrence of the (nonempty,
lowercase) pattern `p0 :: ps`, exactly as `String.prototype.replace` with a
`g` flag and an empty replacement. -/
def stripSubCI (p0 : Char) (ps : List Char) (l : List Char) : List Char :=
  stripSubCIAux p0 ps l.length l

/-- `replace(/javascript:/gi, '')`. -/
def stripJavascript (l : List Char) : List Char :=
  stripSubCI 'j' ['a', 'v', 'a', 's', 'c', 'r', 'i', 'p', 't', ':'] l

/-- JS regex `\w`. -/
def isWordChar (c : Char) : Bool :=
  ('a' ≤ c && c ≤ 'z') || ('A' ≤ c && c ≤ 'Z') || ('0' ≤ c && c ≤ '9') || c = '_'

/-- Match of `/on\w+=/i` anchored at the head of the list: `on`
(case-insensitive), a maximal nonempty run of word characters, then `=`
(no backtracking can succeed elsewhere since `=` is not a word character);
returns the remainder after the match. -/
def matchEvt : List Char → Option (List Char)
  | c1 :: c2 :: rest =>
    if c1.toLower = 'o' && c2.toLower = 'n' then
      match rest.takeWhile isWordChar, rest.dropWhile isWordChar with
      | [], _ => none
      | _ :: _, '=' :: tail => some tail
      | _ :: _, _ => none
    else none
  | _ => none

/-- Fuel-indexed scan removing every `/on\w+=/i` match, left to right.  Each
step consumes at least one character, so fuel `≥` the list length suffices. -/
def stripEvtAux : Nat → List Char → List Char
  | _, [] => []
  | 0, l => l
  | fuel + 1, c :: cs =>
    match matchEvt (c :: cs) with
    | some r => stripEvtAux fuel r
    | none => c :: stripEvtAux fuel cs

/-- `replace(/on\w+=/gi, '')`: remove every event-handler-looking substring,
scanning left to right. -/
def stripEvt (l : List Char) : List Char :=
  stripEvtAux l.length l

/-- Whether the (lowercase) pattern occurs case-insensitively anywhere. -/
def containsCI (pat : List Char) : List Char → Bool
  | [] => (dropPrefixCI pat []).isSome
  | c :: cs => (dropPrefixCI pat (c :: cs)).isSome || containsCI pat cs

/-- Whether `/on\w+=/i` matches anywhere. -/
def hasEvt : List Char → Bool
  | [] => false
  | c :: cs => (matchEvt (c :: cs)).isSome || hasEvt cs

/-- `sanitizeString` from `src/lib/security/validation.ts`:
trim, strip `<`/`>`, strip `javascript:` (ci), strip `on\w+=` (ci),
truncate to 1000 characters. -/
def sanitizeChars (l : List Char) : List Char :=
  (stripEvt (stripJavascript (filterAngle (trimChars l)))).take 1000

/-- String-level wrapper of `sanitizeChars`. -/
def sanitizeString (s : String) : String :=
  String.mk (sanitizeChars s.data)

/-- The XSS signature test `/<script|javascript:|on\w+=/i`. -/
def xssTest (s : String) : Bool :=
  containsCI ['<', 's', 'c', 'r', 'i', 'p', 't'] s.data ||
  containsCI ['j', 'a', 'v', 'a', 's', 'c', 'r', 'i', 'p', 't', ':'] s.data ||
  hasEvt s.data

/-- Hex digit for the case-insensitive UUID regex. -/
def isHexDigit (c : Char) : Bool :=
  ('0' ≤ c && c ≤ '9') || ('a' ≤ c && c ≤ 'f') || ('A' ≤ c && c ≤ 'F')

/-- The canonical-UUID shape test
`/^[0-9a-f]{8}-[0-9a-f]{4}-[0-9a-f]{4}-[0-9a-f]{4}-[0-9a-f]{12}$/i`. -/
def isUUID (s : String) : Bool :=
  let cs := s.data
  cs.length = 36 &&
  (List.range 36).all (fun i =>
    if i = 8 || i = 13 || i = 18 || i = 23 then cs.getD i ' ' = '-'
    else isHexDigit (cs.getD i ' '))

/-! ## Validation (`src/lib/security/validation.ts`)

Zod schemas are embedded as issue-collecting checks: every failed rule adds
its message, in schema evaluation order (object keys in shape order; string
checks `min`, `max`, then the `refine`; arrays check `min`/`max` first, then
each element, then the `refine`); `validate*` joins all collected messages
with `", "` into one error, mirroring
`error.errors.map(e => e.message).join(', ')`. -/

deriving instance DecidableEq for Except

/-- Raw poll input `{question, options}`. -/
structure PollInput where
  question : String
  options : List String
deriving DecidableEq

/-- Issues collected by `PollQuestionSchema` on a string value. -/
def questionIssues (q : String) : List String :=
  (if q.length < 1 then ["Question is required"] else []) ++
  (if q.length > 500 then ["Question must be less than 500 characters"] else []) ++
  (if xssTest q then ["Question contains potentially malicious content"] else [])

/-- Issues collected by `PollOptionSchema` on a string value. -/
def optionIssues (o : String) : List String :=
  (if o.length < 1 then ["Option cannot be empty"] else []) ++
  (if o.length > 200 then ["Option must be less than 200 characters"] else []) ++
  (if xssTest o then ["Option contains potentially malicious content"] else [])

/-- Issues collected by `PollOptionsSchema`: array bounds, then per-element
issues, then the uniqueness refinement (`new Set(options).size ===
options.length`). -/
def optionsIssues (os : List String) : List String :=
  (if os.length < 2 then ["At least 2 options are required"] else []) ++
  (if os.length > 10 then ["Maximum 10 options allowed"] else []) ++
  (os.map optionIssues).flatten ++
  (if os.dedup.length = os.length then [] else ["Options must be unique"])

/-- Issues collected by `CreatePollSchema` (question key, then options key). -/
def pollIssues (d : PollInput) : List String :=
  questionIssues d.question ++ optionsIssues d.options

/-- `validatePollData`: `CreatePollSchema.parse`, rethrowing a `ZodError` as
one `Error` whose message joins every issue with `", "`. -/
def validatePollData (d : PollInput) : Except String PollInput :=
  if pollIssues d = [] then .ok d
  else .error (String.intercalate ", " (pollIssues d))

/-- Issues collected by `VoteSchema` (`pollId` must be UUID-shaped,
`optionIndex` a non-negative integer; the input is already a string/int
pair, so only the value checks can fail). -/
def voteIssues (pollId : String) (optionIndex : Int) : List String :=
  (if isUUID pollId then [] else ["Invalid poll ID"]) ++
  (if optionIndex < 0 then ["Invalid option index"] else [])

/-- `validateVoteData`: `VoteSchema.parse` with joined issue messages. -/
def validateVoteData (pollId : String) (optionIndex : Int) :
    Except String (String × Int) :=
  if voteIssues pollId optionIndex = [] then .ok (pollId, optionIndex)
  else .error (String.intercalate ", " (voteIssues pollId optionIndex))

/-- `sanitizePollData`: sanitize the question and each option in order. -/
def sanitizePollData (d : PollInput) : PollInput :=
  ⟨sanitizeString d.question, d.options.map sanitizeString⟩

/-! ## Rate limiter (`checkRateLimit`)

The process-wide `rateLimitMap` is modelled as a function from keys to
optional entries; `Date.now()` as an explicit `now : Nat` (milliseconds);
`remaining` as `Int` since `maxRequests - 1` may be negative in JS. -/

/-- An entry of `rateLimitMap`: `{count, resetTime}`. -/
structure RLEntry where
  count : Nat
  resetTime : Nat
deriving DecidableEq

/-- The process-wide `rateLimitMap`. -/
def RLMap : Type := String → Option RLEntry

/-- `Map.set`. -/
def rlSet (m : RLMap) (k : String) (e : RLEntry) : RLMap :=
  fun k2 => if k2 = k then some e else m k2

/-- The `{allowed, remaining, resetTime}` result of `checkRateLimit`. -/
structure RLResult where
  allowed : Bool
  remaining : Int
  resetTime : Nat
deriving DecidableEq

/-- `checkRateLimit(identifier, maxRequests, windowMs)` at time `now` on map
`m`; returns the result together with the updated map. -/
def checkRateLimit (identifier : String) (maxRequests windowMs : Nat)
    (now : Nat) (m : RLMap) : RLResult × RLMap :=
  match m identifier with
  | none =>
    (⟨true, (maxRequests : Int) - 1, now + windowMs⟩,
     rlSet m identifier ⟨1, now + windowMs⟩)
  | some current =>
    if now > current.resetTime then
      (⟨true, (maxRequests : Int) - 1, now + windowMs⟩,
       rlSet m identifier ⟨1, now + windowMs⟩)
    else if current.count ≥ maxRequests then
      (⟨false, 0, current.resetTime⟩, m)
    else
      (⟨true, (maxRequests : Int) - (current.count + 1), current.resetTime⟩,
       rlSet m identifier ⟨current.count + 1, current.resetTime⟩)

/-- A sequence of `checkRateLimit` calls for one key at the given times,
threading the map. -/
def rlCalls (k : String) (maxRequests windowMs : Nat) (m : RLMap)
    (ts : List Nat) : RLMap :=
  ts.foldl (fun acc t => (checkRateLimit k maxRequests windowMs t acc).2) m

/-! ## Security context and guards (`src/lib/security/auth-utils.ts`)

A session is `Option (userId × optional role metadata)`; `getSecurityContext`
derives the context exactly as the code does from `supabase.auth.getUser()`
and `user.user_metadata?.role || 'user'` (note `||`: an empty-string role is
falsy and also defaults to `"user"`). -/

/-- `UserRole`. -/
structure UserRole where
  role : String
  permissions : List String
deriving DecidableEq

/-- `SecurityContext`. -/
structure SecurityContext where
  user : Option String
  role : Option UserRole
  isAuthenticated : Bool
  isAdmin : Bool
deriving DecidableEq

/-- A session as seen by `getSecurityContext`: `none` when
`supabase.auth.getUser()` errors or returns no user, otherwise the user id
and the optional `user_metadata.role`. -/
def Session : Type := Option (String × Option String)

/-- `getSecurityContext`. -/
def getSecurityContext (session : Session) : SecurityContext :=
  match session with
  | none => ⟨none, none, false, false⟩
  | some (uid, metaRole) =>
    let role := match metaRole with
      | some r => if r = "" then "user" else r
      | none => "user"
    let isAdmin := role = "admin"
    ⟨some uid,
     some ⟨if isAdmin then "admin" else "user",
           if isAdmin then ["read:all", "write:all", "delete:all", "admin:access"]
           else ["read:own", "write:own", "delete:own"]⟩,
     true, isAdmin⟩

/-- `hasPermission(context, action)`.  `context.role!` is a TS non-null
assertion; contexts produced by `getSecurityContext` always carry a role when
authenticated, so the default used for the impossible `none` case is never
reached on such contexts. -/
def hasPermission (context : SecurityContext) (action : String) : Bool :=
  if !context.isAuthenticated then false
  else
    let permissions := (context.role.getD ⟨"user", []⟩).permissions
    if permissions.contains "admin:access" then true
    else permissions.any (fun permission =>
      permission = action ||
      -- `permission.startsWith(action.split(':')[0] + ':')`, on characters
      ((action.data.takeWhile (fun c => c ≠ ':')) ++ [':']).isPrefixOf
        permission.data)

/-- A stored poll row. -/
structure Poll where
  id : String
  user_id : String
  question : String
  options : List String
deriving DecidableEq

/-- Supabase `.single()`: data when the filter matches exactly one row,
otherwise an error (surfaced as `none` since callers only null-check the
data). -/
def findSingle {α : Type} (l : List α) (p : α → Bool) : Option α :=
  match l.filter p with
  | [v] => some v
  | _ => none

/-- `verifyOwnership('poll', resourceId, userId)`: select the poll's
`user_id` and compare (`poll?.user_id === userId`). -/
def verifyOwnership (polls : List Poll) (resourceId userId : String) : Bool :=
  match findSingle polls (fun p => p.id = resourceId) with
  | some poll => poll.user_id = userId
  | none => false

/-- `requireAuth`. -/
def requireAuth (session : Session) : Except String SecurityContext :=
  let context := getSecurityContext session
  if !context.isAuthenticated then .error "Authentication required"
  else .ok context

/-- `requireAdmin`. -/
def requireAdmin (session : Session) : Except String SecurityContext :=
  let context := getSecurityContext session
  if !context.isAuthenticated then .error "Authentication required"
  else if !context.isAdmin then .error "Admin access required"
  else .ok context

/-- `requireOwnershipOrAdmin('poll', resourceId)`.  The second component
counts the external owner lookups (`verifyOwnership` calls) performed.
`context.user!` is a TS non-null assertion; authenticated contexts always
carry a user id, so the `getD` default is never reached. -/
def requireOwnershipOrAdmin (session : Session) (polls : List Poll)
    (resourceId : String) : Except String SecurityContext × Nat :=
  let context := getSecurityContext session
  if !context.isAuthenticated then (.error "Authentication required", 0)
  else if context.isAdmin then (.ok context, 0)
  else if verifyOwnership polls resourceId (context.user.getD "") then
    (.ok context, 1)
  else
    (.error "Access denied: You can only access your own resources", 1)

/-! ## Poll actions (`src/app/lib/actions/poll-actions.ts`) -/

/-- A stored vote row. -/
structure Vote where
  poll_id : String
  user_id : Option String
  option_index : Int
  ip_address : Option String
deriving DecidableEq

/-- JS `a || b` for an optional string `a`: the default is used when `a` is
nullish or the empty string (both falsy). -/
def jsOr (s : Option String) (dflt : String) : String :=
  match s with
  | some v => if v = "" then dflt else v
  | none => dflt

/-- The identifier `submitVote` keys its rate-limit check with:
`clientIP || "anonymous"`. -/
def voteRateIdentifier (clientIP : Option String) : String :=
  jsOr clientIP "anonymous"

/-- Following the spec's words (§4.6 step 1), for comparison with
`voteRateIdentifier`: rate-limit check keyed by
`callerIdentity ?? callerAddress ?? "anonymous"` (nullish coalescing). -/
def specVoteRateIdentifier (callerIdentity callerAddress : Option String) :
    String :=
  callerIdentity.getD (callerAddress.getD "anonymous")

/-- The opaque `error.message` a datastore `.single()` failure surfaces;
its text comes from the collaborator, not this core. -/
def storageSingleMessage : String :=
  "JSON object requested, multiple (or no) rows returned"

/-- Outcome of `submitVote`: the returned `{error}` plus the updated vote
store and rate-limit map. -/
structure SubmitVoteResult where
  error : Option String
  votes : List Vote
  rl : RLMap

/-- `submitVote(pollId, optionIndex, clientIP?)`.  The ambient authenticated
user (`supabase.auth.getUser()`) is the `user` argument; the datastore is the
`polls`/`votes` lists; `Date.now()` is `now`. -/
def submitVote (pollId : String) (optionIndex : Int) (clientIP : Option String)
    (user : Option String) (polls : List Poll) (votes : List Vote)
    (now : Nat) (m : RLMap) : SubmitVoteResult :=
  let identifier := voteRateIdentifier clientIP
  let res := checkRateLimit ("vote_" ++ identifier) 10 60000 now m
  let m2 := res.2
  if !res.1.allowed then
    ⟨some ("Rate limit exceeded. Please wait " ++
      toString ((res.1.resetTime - now + 999) / 1000) ++
      " seconds before voting again."), votes, m2⟩
  else
    match validateVoteData pollId optionIndex with
    | .error e => ⟨some e, votes, m2⟩
    | .ok (vpid, vidx) =>
      match findSingle polls (fun p => p.id = vpid) with
      | none => ⟨some "Poll not found", votes, m2⟩
      | some poll =>
        if vidx < 0 || vidx ≥ (poll.options.length : Int) then
          ⟨some "Invalid option selected", votes, m2⟩
        else
          match user with
          | some uid =>
            match findSingle votes
                (fun v => v.poll_id = vpid && v.user_id = some uid) with
            | some _ => ⟨some "You have already voted on this poll", votes, m2⟩
            | none => ⟨none, votes ++ [⟨vpid, user, vidx, clientIP⟩], m2⟩
          | none =>
            match findSingle votes
                (fun v => v.poll_id = vpid && v.ip_address = clientIP) with
            | some _ =>
              ⟨some "You have already voted on this poll from this device",
               votes, m2⟩
            | none => ⟨none, votes ++ [⟨vpid, user, vidx, clientIP⟩], m2⟩

/-- Outcome of `createPoll`: the returned `{error, data}` plus the updated
poll store and rate-limit map. -/
structure CreatePollResult where
  error : Option String
  data : Option Poll
  polls : List Poll
  rl : RLMap

/-- `createPoll(formData)`.  `csrfOk` is the outcome of the opaque
`validateCSRFToken` equality check; `clientIP`, `question` are the form
fields (`formData.get` returns string-or-null); `options` the repeated
`options` fields; `newId` the row id generated by the datastore on insert. -/
def createPoll (csrfOk : Bool) (clientIP : Option String) (session : Session)
    (question : Option String) (options : List String)
    (newId : String) (polls : List Poll) (now : Nat) (m : RLMap) :
    CreatePollResult :=
  if !csrfOk then
    ⟨some "Invalid CSRF token. Please refresh the page and try again.",
     none, polls, m⟩
  else
    let ipStr := jsOr clientIP "unknown"
    let res := checkRateLimit ("create_poll_" ++ ipStr) 5 60000 now m
    let m2 := res.2
    if !res.1.allowed then
      ⟨some ("Rate limit exceeded. Please wait " ++
        toString ((res.1.resetTime - now + 999) / 1000) ++
        " seconds before creating another poll."), none, polls, m2⟩
    else
      match requireAuth session with
      | .error e => ⟨some e, none, polls, m2⟩
      | .ok context =>
        let q := question.getD ""
        let opts := options.filter (fun o => o ≠ "")
        if q = "" || opts.length < 2 then
          ⟨some "Please provide a question and at least two options.",
           none, polls, m2⟩
        else
          match validatePollData ⟨q, opts⟩ with
          | .error e => ⟨some e, none, polls, m2⟩
          | .ok pollData =>
            let s := sanitizePollData pollData
            let row : Poll := ⟨newId, context.user.getD "", s.question, s.options⟩
            ⟨none, some row, polls ++ [row], m2⟩

/-- `getPollById(id)`: public read, UUID shape check then `.single()`. -/
def getPollById (polls : List Poll) (id : String) :
    Option Poll × Option String :=
  if !isUUID id then (none, some "Invalid poll ID format")
  else
    match findSingle polls (fun p => p.id = id) with
    | none => (none, some storageSingleMessage)
    | some p => (some p, none)

/-- `getPollByIdForEdit(id)`: the ownership/admin guard runs first; the UUID
shape check only afterwards. -/
def getPollByIdForEdit (session : Session) (polls : List Poll) (id : String) :
    Option Poll × Option String :=
  match (requireOwnershipOrAdmin session polls id).1 with
  | .error e => (none, some e)
  | .ok _ =>
    if !isUUID id then (none, some "Invalid poll ID format")
    else
      match findSingle polls (fun p => p.id = id) with
      | none => (none, some storageSingleMessage)
      | some p => (some p, none)

/-- Outcome of `deletePoll`: the returned `{error}` plus the updated stores. -/
structure DeletePollResult where
  error : Option String
  polls : List Poll
  votes : List Vote

/-- `deletePoll(id)`: UUID shape check first, then the ownership/admin
guard, then cascade-delete votes and the poll. -/
def deletePoll (session : Session) (id : String) (polls : List Poll)
    (votes : List Vote) : DeletePollResult :=
  if !isUUID id then ⟨some "Invalid poll ID format", polls, votes⟩
  else
    match (requireOwnershipOrAdmin session polls id).1 with
    | .error e => ⟨some e, polls, votes⟩
    | .ok _ =>
      ⟨none, polls.filter (fun p => p.id ≠ id),
       votes.filter (fun v => v.poll_id ≠ id)⟩

/-- `updatePoll(pollId, formData)`: CSRF check, then UUID shape check, then
the ownership/admin guard, then validate + sanitize + update. -/
def updatePoll (csrfOk : Bool) (session : Session) (pollId : String)
    (question : Option String) (options : List String) (polls : List Poll) :
    Option String × List Poll :=
  if !csrfOk then
    (some "Invalid CSRF token. Please refresh the page and try again.", polls)
  else if !isUUID pollId then (some "Invalid poll ID format", polls)
  else
    match (requireOwnershipOrAdmin session polls pollId).1 with
    | .error e => (some e, polls)
    | .ok _ =>
      let q := question.getD ""
      let opts := options.filter (fun o => o ≠ "")
      if q = "" || opts.length < 2 then
        (some "Please provide a question and at least two options.", polls)
      else
        match validatePollData ⟨q, opts⟩ with
        | .error e => (some e, polls)
        | .ok pollData =>
          let s := sanitizePollData pollData
          (none, polls.map (fun p =>
            if p.id = pollId then ⟨p.id, p.user_id, s.question, s.options⟩
            else p))

/-! ## Result tally (`src/app/lib/actions/admin-actions.ts`, `getPollResults`) -/

/-- The `voteCounts` accumulation: start from `new Array(n).fill(0)` and bump
`voteCounts[vote.option_index]` for every in-range vote. -/
def computeVoteCounts (n : Nat) (votes : List Int) : List Nat :=
  votes.foldl
    (fun counts v =>
      if 0 ≤ v && v < (n : Int) then
        counts.set v.toNat (counts.getD v.toNat 0 + 1)
      else counts)
    (List.replicate n 0)

/-- `Math.round((count / totalVotes) * 100)` for natural inputs, modelled as
exact-rational half-up rounding `⌊100·c/t + 1/2⌋` (the code computes in IEEE
doubles; at these magnitudes the value fits exactly enough that the rounded
result is the exact-rational one for all realistic tallies). -/
def jsRound100 (c total : Nat) : Nat :=
  (200 * c + total) / (2 * total)

/-- The `{voteCounts, totalVotes, percentages}` part of `getPollResults`. -/
structure PollResults where
  voteCounts : List Nat
  totalVotes : Nat
  percentages : List Nat
deriving DecidableEq

/-- The result computation of `getPollResults` (lines 86–106): counts per
option ignoring out-of-range indices, total as the reduce-sum of the counts,
percentages rounded independently per option (0 across the board when there
are no votes). -/
def computeResults (options : List String) (votes : List Int) : PollResults :=
  let voteCounts := computeVoteCounts options.length votes
  let totalVotes := voteCounts.foldl (fun s c => s + c) 0
  ⟨voteCounts, totalVotes,
   voteCounts.map (fun c => if totalVotes > 0 then jsRound100 c totalVotes else 0)⟩

/-- `getPollResults(pollId)`: UUID shape check, poll `.single()`, vote fetch
by `poll_id`, then the tally. -/
def getPollResults (polls : List Poll) (votes : List Vote) (pollId : String) :
    Option (Poll × PollResults) × Option String :=
  if !isUUID pollId then (none, some "Invalid poll ID format")
  else
    match findSingle polls (fun p => p.id = pollId) with
    | none => (none, some "Poll not found")
    | some poll =>
      let pollVotes :=
        (votes.filter (fun v => v.poll_id = pollId)).map (fun v => v.option_index)
      (some (poll, computeResults poll.options pollVotes), none)

/-! ## Helper lemmas -/

theorem stripSubCIAux_eq_self (p0 : Char) (ps : List Char) (fuel : Nat)
    (l : List Char) (h : containsCI (p0 :: ps) l = false) :
    stripSubCIAux p0 ps fuel l = l := by
  induction fuel generalizing l with
  | zero => cases l <;> rfl
  | succ fuel ih =>
    cases l with
    | nil => rfl
    | cons c cs =>
      simp only [containsCI, Bool.or_eq_false_iff] at h
      obtain ⟨h1, h2⟩ := h
      have hn : dropPrefixCI (p0 :: ps) (c :: cs) = none := by
        cases hd : dropPrefixCI (p0 :: ps) (c :: cs) with
        | none => rfl
        | some r => rw [hd] at h1; simp at h1
      simp only [stripSubCIAux, hn]
      rw [ih cs h2]

theorem stripEvtAux_eq_self (fuel : Nat) (l : List Char)
    (h : hasEvt l = false) : stripEvtAux fuel l = l := by
  induction fuel generalizing l with
  | zero => cases l <;> rfl
  | succ fuel ih =>
    cases l with
    | nil => rfl
    | cons c cs =>
      simp only [hasEvt, Bool.or_eq_false_iff] at h
      obtain ⟨h1, h2⟩ := h
      have hn : matchEvt (c :: cs) = none := by
        cases hd : matchEvt (c :: cs) with
        | none => rfl
        | some r => rw [hd] at h1; simp at h1
      simp only [stripEvtAux, hn]
      rw [ih cs h2]

theorem pre_get_zero {b a : List Char} (h : b <+: a) (hl : 0 < b.length)
    (hla : 0 < a.length) : b.get ⟨0, hl⟩ = a.get ⟨0, hla⟩ := by
  obtain ⟨t, rfl⟩ := h
  cases b with
  | nil => simp at hl
  | cons x xs => simp

theorem trimChars_eq_rdropWhile (x : List Char) :
    trimChars x = List.rdropWhile jsWhitespace (x.dropWhile jsWhitespace) := rfl

theorem trim_fix_aux (a : List Char) (ha : a.dropWhile jsWhitespace = a) :
    trimChars (List.rdropWhile jsWhitespace a) =
      List.rdropWhile jsWhitespace a := by
  have hb : (List.rdropWhile jsWhitespace a).dropWhile jsWhitespace =
      List.rdropWhile jsWhitespace a := by
    rw [List.dropWhile_eq_self_iff]
    intro hl
    have hpre : List.rdropWhile jsWhitespace a <+: a :=
      List.rdropWhile_prefix jsWhitespace a
    have hla : 0 < a.length := lt_of_lt_of_le hl hpre.length_le
    rw [pre_get_zero hpre hl hla]
    exact List.dropWhile_eq_self_iff.mp ha hla
  rw [trimChars_eq_rdropWhile, hb, List.rdropWhile_idempotent]

theorem trimChars_idempotent (l : List Char) :
    trimChars (trimChars l) = trimChars l := by
  rw [trimChars_eq_rdropWhile l]
  exact trim_fix_aux (l.dropWhile jsWhitespace)
    (List.dropWhile_idempotent jsWhitespace l)

/-- With no angle brackets, no case-insensitive `javascript:`, no
`on<word>=` substring and length at most 1000 after trimming, sanitization
reduces to trimming. -/
theorem sanitizeChars_eq_trim (l : List Char)
    (h1 : ∀ c ∈ trimChars l, ¬(c = '<' ∨ c = '>'))
    (h2 : containsCI ['j', 'a', 'v', 'a', 's', 'c', 'r', 'i', 'p', 't', ':']
            (trimChars l) = false)
    (h3 : hasEvt (trimChars l) = false)
    (h4 : (trimChars l).length ≤ 1000) :
    sanitizeChars l = trimChars l := by
  unfold sanitizeChars
  have hfa : filterAngle (trimChars l) = trimChars l := by
    unfold filterAngle
    refine List.filter_eq_self.mpr (fun c hc => ?_)
    simpa using h1 c hc
  rw [hfa]
  unfold stripJavascript stripSubCI
  rw [stripSubCIAux_eq_self _ _ _ _ h2]
  unfold stripEvt
  rw [stripEvtAux_eq_self _ _ h3]
  exact List.take_of_length_le h4

theorem rlCalls_count (k : String) (N w : Nat) (ts : List Nat) (m : RLMap)
    (c R : Nat) (hm : m k = some ⟨c, R⟩) (h1 : 1 ≤ c)
    (hts : ∀ t ∈ ts, t ≤ R) (hc : c + ts.length ≤ N) :
    rlCalls k N w m ts k = some ⟨c + ts.length, R⟩ := by
  induction ts generalizing m c with
  | nil => simpa [rlCalls] using hm
  | cons t ts ih =>
    simp only [rlCalls, List.foldl_cons]
    have hle : t ≤ R := hts t (by simp)
    have hstep : checkRateLimit k N w t m =
        (⟨true, (N : Int) - (c + 1), R⟩, rlSet m k ⟨c + 1, R⟩) := by
      simp only [checkRateLimit, hm]
      rw [if_neg (by omega), if_neg (by simp at hc; omega)]
    rw [hstep]
    have := ih (rlSet m k ⟨c + 1, R⟩) (c + 1) (by simp [rlSet])
      (by omega) (fun t2 ht2 => hts t2 (by simp [ht2]))
      (by simp at hc ⊢; omega)
    rw [show c + (t :: ts).length = c + 1 + ts.length by simp; omega]
    exact this

theorem sum_set_incr (l : List Nat) (i : Nat) (h : i < l.length) :
    (l.set i (l.getD i 0 + 1)).sum = l.sum + 1 := by
  induction l generalizing i with
  | nil => simp at h
  | cons x xs ih =>
    cases i with
    | zero => simp [List.getD]; omega
    | succ n =>
      simp only [List.set, List.sum_cons, List.getD_cons_succ]
      rw [ih n (by simpa using h)]
      omega

/-- The tally accumulation step of `getPollResults`. -/
def tallyStep (n : Nat) (counts : List Nat) (v : Int) : List Nat :=
  if 0 ≤ v && v < (n : Int) then counts.set v.toNat (counts.getD v.toNat 0 + 1)
  else counts

theorem computeVoteCounts_eq_foldl (n : Nat) (votes : List Int) :
    computeVoteCounts n votes = votes.foldl (tallyStep n) (List.replicate n 0) :=
  rfl

theorem tally_foldl_spec (n : Nat) (votes : List Int) (acc : List Nat)
    (hlen : acc.length = n) :
    (votes.foldl (tallyStep n) acc).length = n ∧
    (∀ i, i < n → (votes.foldl (tallyStep n) acc).getD i 0 =
      acc.getD i 0 + (votes.filter (fun v => v = (i : Int))).length) ∧
    (votes.foldl (tallyStep n) acc).sum =
      acc.sum + (votes.filter (fun v => 0 ≤ v && v < (n : Int))).length := by
  induction votes generalizing acc with
  | nil => simp [hlen]
  | cons v vs ih =>
    simp only [List.foldl_cons]
    by_cases hv : (0 ≤ v && v < (n : Int)) = true
    · have hv2 : 0 ≤ v ∧ v < (n : Int) := by simpa using hv
      have hvnat : v.toNat < n := by omega
      have hstep : tallyStep n acc v =
          acc.set v.toNat (acc.getD v.toNat 0 + 1) := by
        unfold tallyStep
        rw [if_pos hv]
      rw [hstep]
      have hlen2 : (acc.set v.toNat (acc.getD v.toNat 0 + 1)).length = n := by
        simp [hlen]
      obtain ⟨ihl, ihg, ihs⟩ := ih _ hlen2
      refine ⟨ihl, ?_, ?_⟩
      · intro i hi
        rw [ihg i hi]
        by_cases hvi : v = (i : Int)
        · have hti : v.toNat = i := by omega
          have hset : (acc.set v.toNat (acc.getD v.toNat 0 + 1)).getD i 0 =
              acc.getD i 0 + 1 := by
            subst hti
            simp [List.getD, List.getElem?_set, hlen ▸ hvnat]
          rw [hset, List.filter_cons_of_pos (by simp [hvi])]
          simp
          omega
        · have hti : v.toNat ≠ i := by omega
          have hset : (acc.set v.toNat (acc.getD v.toNat 0 + 1)).getD i 0 =
              acc.getD i 0 := by
            simp [List.getD, List.getElem?_set, hti]
          rw [hset, List.filter_cons_of_neg (by simp [hvi])]
      · rw [ihs, sum_set_incr acc v.toNat (hlen ▸ hvnat)]
        simp only [List.filter_cons]
        rw [if_pos hv]
        simp only [List.length_cons]
        omega
    · have hstep : tallyStep n acc v = acc := by
        unfold tallyStep
        rw [if_neg hv]
      rw [hstep]
      obtain ⟨ihl, ihg, ihs⟩ := ih acc hlen
      refine ⟨ihl, ?_, ?_⟩
      · intro i hi
        rw [ihg i hi]
        have hvi : ¬(v = (i : Int)) := by
          intro hcon
          apply hv
          subst hcon
          simp only [Bool.and_eq_true, decide_eq_true_eq]
          omega
        rw [List.filter_cons_of_neg (by simp [hvi])]
      · rw [ihs]
        simp only [List.filter_cons]
        rw [if_neg hv]

theorem dedup_length_eq_iff (os : List String) :
    os.dedup.length = os.length ↔ os.Nodup := by
  constructor
  · intro h
    exact List.dedup_eq_self.mp (os.dedup_sublist.eq_of_length h)
  · intro h
    rw [List.dedup_eq_self.mpr h]

theorem mem_pollIssues_qreq (d : PollInput) (h : d.question.length < 1) :
    "Question is required" ∈ pollIssues d := by
  simp [pollIssues, questionIssues, h]

theorem mem_pollIssues_qlong (d : PollInput) (h : d.question.length > 500) :
    "Question must be less than 500 characters" ∈ pollIssues d := by
  simp [pollIssues, questionIssues, h]

theorem mem_pollIssues_qxss (d : PollInput) (h : xssTest d.question = true) :
    "Question contains potentially malicious content" ∈ pollIssues d := by
  simp [pollIssues, questionIssues, h]

theorem mem_pollIssues_few (d : PollInput) (h : d.options.length < 2) :
    "At least 2 options are required" ∈ pollIssues d := by
  simp [pollIssues, optionsIssues, h]

theorem mem_pollIssues_many (d : PollInput) (h : d.options.length > 10) :
    "Maximum 10 options allowed" ∈ pollIssues d := by
  simp [pollIssues, optionsIssues, h]

theorem mem_pollIssues_oempty (d : PollInput) (o : String) (ho : o ∈ d.options)
    (h : o.length < 1) : "Option cannot be empty" ∈ pollIssues d := by
  have : "Option cannot be empty" ∈ (d.options.map optionIssues).flatten :=
    List.mem_flatten.mpr ⟨optionIssues o, List.mem_map_of_mem _ ho,
      by simp [optionIssues, h]⟩
  simp [pollIssues, optionsIssues, this]

theorem mem_pollIssues_olong (d : PollInput) (o : String) (ho : o ∈ d.options)
    (h : o.length > 200) :
    "Option must be less than 200 characters" ∈ pollIssues d := by
  have : "Option must be less than 200 characters" ∈
      (d.options.map optionIssues).flatten :=
    List.mem_flatten.mpr ⟨optionIssues o, List.mem_map_of_mem _ ho,
      by simp [optionIssues, h]⟩
  simp [pollIssues, optionsIssues, this]

theorem mem_pollIssues_oxss (d : PollInput) (o : String) (ho : o ∈ d.options)
    (h : xssTest o = true) :
    "Option contains potentially malicious content" ∈ pollIssues d := by
  have : "Option contains potentially malicious content" ∈
      (d.options.map optionIssues).flatten :=
    List.mem_flatten.mpr ⟨optionIssues o, List.mem_map_of_mem _ ho,
      by simp [optionIssues, h]⟩
  simp [pollIssues, optionsIssues, this]

theorem mem_pollIssues_dup (d : PollInput) (h : ¬ d.options.Nodup) :
    "Options must be unique" ∈ pollIssues d := by
  have hne : ¬ d.options.dedup.length = d.options.length := fun hc =>
    h ((dedup_length_eq_iff d.options).mp hc)
  simp [pollIssues, optionsIssues, hne]

/-- Validation succeeds exactly on issue-free input. -/
theorem validatePollData_ok_iff (d : PollInput) :
    validatePollData d = .ok d ↔ pollIssues d = [] := by
  by_cases h : pollIssues d = [] <;> simp [validatePollData, h]

/-- Consequences of an issue-free poll input (the rules all hold). -/
theorem pollIssues_nil_facts (d : PollInput) (h : pollIssues d = []) :
    1 ≤ d.question.length ∧ 2 ≤ d.options.length ∧ d.options.length ≤ 10 ∧
      d.options.Nodup := by
  refine ⟨?_, ?_, ?_, ?_⟩
  · by_contra hc
    have := mem_pollIssues_qreq d (by omega)
    rw [h] at this
    exact absurd this (List.not_mem_nil _)
  · by_contra hc
    have := mem_pollIssues_few d (by omega)
    rw [h] at this
    exact absurd this (List.not_mem_nil _)
  · by_contra hc
    have := mem_pollIssues_many d (by omega)
    rw [h] at this
    exact absurd this (List.not_mem_nil _)
  · by_contra hc
    have := mem_pollIssues_dup d hc
    rw [h] at this
    exact absurd this (List.not_mem_nil _)

theorem validateVoteData_ok (pollId : String) (idx : Int)
    (huuid : isUUID pollId = true) (h0 : 0 ≤ idx) :
    validateVoteData pollId idx = .ok (pollId, idx) := by
  unfold validateVoteData voteIssues
  rw [if_pos huuid, if_neg (show ¬(idx < 0) by omega)]
  simp

/-- Evaluation of `submitVote` for an authenticated caller past the rate
limit, validation, poll lookup and bounds check: the outcome is decided by
the duplicate lookup on the `(poll_id, user_id)` key. -/
theorem submitVote_auth_run (poll : Poll) (polls : List Poll)
    (votes : List Vote) (uid : String) (idx : Int) (ip : Option String)
    (now : Nat) (m : RLMap)
    (hpoll : findSingle polls (fun p => p.id = poll.id) = some poll)
    (huuid : isUUID poll.id = true)
    (hrate : (checkRateLimit ("vote_" ++ voteRateIdentifier ip) 10 60000 now
      m).1.allowed = true)
    (h0 : 0 ≤ idx) (hlt : idx < (poll.options.length : Int)) :
    (votes.filter (fun v => v.poll_id = poll.id && v.user_id = some uid) = [] →
      submitVote poll.id idx ip (some uid) polls votes now m =
        ⟨none, votes ++ [⟨poll.id, some uid, idx, ip⟩],
         (checkRateLimit ("vote_" ++ voteRateIdentifier ip) 10 60000 now m).2⟩) ∧
    (∀ w, votes.filter (fun v => v.poll_id = poll.id && v.user_id = some uid)
        = [w] →
      submitVote poll.id idx ip (some uid) polls votes now m =
        ⟨some "You have already voted on this poll", votes,
         (checkRateLimit ("vote_" ++ voteRateIdentifier ip) 10 60000 now m).2⟩) := by
  have hvd := validateVoteData_ok poll.id idx huuid h0
  constructor
  · intro hfil
    have hfs : findSingle votes
        (fun v => v.poll_id = poll.id && v.user_id = some uid) = none := by
      unfold findSingle
      rw [hfil]
    simp only [submitVote, hrate, Bool.not_true, Bool.false_eq_true, if_false,
      hvd, hpoll]
    rw [if_neg (by simp; omega)]
    simp only [hfs]
  · intro w hfil
    have hfs : findSingle votes
        (fun v => v.poll_id = poll.id && v.user_id = some uid) = some w := by
      unfold findSingle
      rw [hfil]
    simp only [submitVote, hrate, Bool.not_true, Bool.false_eq_true, if_false,
      hvd, hpoll]
    rw [if_neg (by simp; omega)]
    simp only [hfs]

/-- Evaluation of `submitVote` for an anonymous caller past the rate limit,
validation, poll lookup and bounds check: the outcome is decided by the
duplicate lookup on the `(poll_id, ip_address)` key. -/
theorem submitVote_anon_run (poll : Poll) (polls : List Poll)
    (votes : List Vote) (idx : Int) (ip : Option String) (now : Nat)
    (m : RLMap)
    (hpoll : findSingle polls (fun p => p.id = poll.id) = some poll)
    (huuid : isUUID poll.id = true)
    (hrate : (checkRateLimit ("vote_" ++ voteRateIdentifier ip) 10 60000 now
      m).1.allowed = true)
    (h0 : 0 ≤ idx) (hlt : idx < (poll.options.length : Int)) :
    (votes.filter (fun v => v.poll_id = poll.id && v.ip_address = ip) = [] →
      submitVote poll.id idx ip none polls votes now m =
        ⟨none, votes ++ [⟨poll.id, none, idx, ip⟩],
         (checkRateLimit ("vote_" ++ voteRateIdentifier ip) 10 60000 now m).2⟩) ∧
    (∀ w, votes.filter (fun v => v.poll_id = poll.id && v.ip_address = ip)
        = [w] →
      submitVote poll.id idx ip none polls votes now m =
        ⟨some "You have already voted on this poll from this device", votes,
         (checkRateLimit ("vote_" ++ voteRateIdentifier ip) 10 60000 now m).2⟩) := by
  have hvd := validateVoteData_ok poll.id idx huuid h0
  constructor
  · intro hfil
    have hfs : findSingle votes
        (fun v => v.poll_id = poll.id && v.ip_address = ip) = none := by
      unfold findSingle
      rw [hfil]
    simp only [submitVote, hrate, Bool.not_true, Bool.false_eq_true, if_false,
      hvd, hpoll]
    rw [if_neg (by simp; omega)]
    simp only [hfs]
  · intro w hfil
    have hfs : findSingle votes
        (fun v => v.poll_id = poll.id && v.ip_address = ip) = some w := by
      unfold findSingle
      rw [hfil]
    simp only [submitVote, hrate, Bool.not_true, Bool.false_eq_true, if_false,
      hvd, hpoll]
    rw [if_neg (by simp; omega)]
    simp only [hfs]

/-! ## Claim theorems -/

/-- **C3 (counterexample).** The sanitizer is not idempotent as claimed for
every string: on `"< a"` one pass yields `" a"` (stripping `<` exposes a
leading space the initial trim has already run too early to remove), and a
second pass trims again, yielding `"a"`. -/
theorem C3_counterexample :
    sanitizeString (sanitizeString "< a") ≠ sanitizeString "< a" ∧
    sanitizeString "< a" = " a" ∧ sanitizeString (sanitizeString "< a") = "a" := by
  refine ⟨by decide, by decide, by decide⟩

/-- **C3 (amended).** `sanitizeString` is idempotent on every string whose
trimmed form contains no `<` or `>` character, no case-insensitive
`javascript:` substring, no `on<word>=` substring, and has at most 1000
characters: then one pass is exactly trimming, and trimming is idempotent.
(In general a second application can differ, see the counterexample.) -/
theorem C3_sanitize_idempotent_on_clean (x : String)
    (h1 : ∀ c ∈ trimChars x.data, ¬(c = '<' ∨ c = '>'))
    (h2 : containsCI ['j', 'a', 'v', 'a', 's', 'c', 'r', 'i', 'p', 't', ':']
            (trimChars x.data) = false)
    (h3 : hasEvt (trimChars x.data) = false)
    (h4 : (trimChars x.data).length ≤ 1000) :
    sanitizeString (sanitizeString x) = sanitizeString x := by
  have hx : sanitizeChars x.data = trimChars x.data :=
    sanitizeChars_eq_trim _ h1 h2 h3 h4
  have hidem := trimChars_idempotent x.data
  show String.mk (sanitizeChars (String.mk (sanitizeChars x.data)).data) =
    String.mk (sanitizeChars x.data)
  have hmk : (String.mk (sanitizeChars x.data)).data = sanitizeChars x.data := rfl
  rw [hmk, hx]
  have h1b : ∀ c ∈ trimChars (trimChars x.data), ¬(c = '<' ∨ c = '>') := by
    rw [hidem]; exact h1
  have h2b : containsCI ['j', 'a', 'v', 'a', 's', 'c', 'r', 'i', 'p', 't', ':']
      (trimChars (trimChars x.data)) = false := by rw [hidem]; exact h2
  have h3b : hasEvt (trimChars (trimChars x.data)) = false := by
    rw [hidem]; exact h3
  have h4b : (trimChars (trimChars x.data)).length ≤ 1000 := by
    rw [hidem]; exact h4
  rw [sanitizeChars_eq_trim _ h1b h2b h3b h4b, hidem]

/-- Witness for C3's amended theorem at the concrete string `"  ok  "`. -/
theorem C3_witness :
    sanitizeString (sanitizeString "  ok  ") = sanitizeString "  ok  " :=
  C3_sanitize_idempotent_on_clean "  ok  " (by decide) (by decide) (by decide)
    (by decide)

/-- **C5.** `checkRateLimit` implements a fixed-window counter: a first call
(or any call after the stored `resetTime` passed) initializes the entry to
count 1 and allows with `remaining = N - 1` and a fresh `resetTime`; calls
with `count ≥ N` inside the window are refused with `remaining = 0` and the
stored `resetTime` and leave the map unchanged; otherwise the count is
incremented and the call is allowed with `remaining = N - count`.  In
particular the `(N+1)`-th call within the window is refused. -/
theorem C5_checkRateLimit_fixed_window (k : String) (N windowMs now : Nat)
    (m : RLMap) :
    ((m k = none ∨ ∃ e, m k = some e ∧ now > e.resetTime) →
      checkRateLimit k N windowMs now m =
        (⟨true, (N : Int) - 1, now + windowMs⟩,
         rlSet m k ⟨1, now + windowMs⟩)) ∧
    (∀ e, m k = some e → now ≤ e.resetTime → e.count ≥ N →
      checkRateLimit k N windowMs now m = (⟨false, 0, e.resetTime⟩, m)) ∧
    (∀ e, m k = some e → now ≤ e.resetTime → e.count < N →
      checkRateLimit k N windowMs now m =
        (⟨true, (N : Int) - (e.count + 1), e.resetTime⟩,
         rlSet m k ⟨e.count + 1, e.resetTime⟩)) ∧
    (∀ ts tlast, m k = none → ts.length + 1 = N →
      (∀ t ∈ ts, t ≤ now + windowMs) → tlast ≤ now + windowMs →
      (checkRateLimit k N windowMs tlast
        (rlCalls k N windowMs (checkRateLimit k N windowMs now m).2 ts)).1.allowed
        = false) := by
  refine ⟨?_, ?_, ?_, ?_⟩
  · rintro (hnone | ⟨e, he, hgt⟩)
    · simp [checkRateLimit, hnone]
    · simp only [checkRateLimit, he]
      rw [if_pos hgt]
  · intro e he hle hge
    simp only [checkRateLimit, he]
    rw [if_neg (by omega), if_pos hge]
  · intro e he hle hlt
    simp only [checkRateLimit, he]
    rw [if_neg (by omega), if_neg (by omega)]
  · intro ts tlast hnone hlen hts hlast
    have hfirst : (checkRateLimit k N windowMs now m).2 =
        rlSet m k ⟨1, now + windowMs⟩ := by
      simp [checkRateLimit, hnone]
    rw [hfirst]
    have hcount := rlCalls_count k N windowMs ts
      (rlSet m k ⟨1, now + windowMs⟩) 1 (now + windowMs)
      (by simp [rlSet]) (le_refl 1) hts (by omega)
    simp only [checkRateLimit, hcount]
    rw [if_neg (by omega), if_pos (by simp; omega)]

/-- **C6.** The tally of `getPollResults`: `voteCounts[i]` is the number of
stored votes with `option_index = i`; votes with out-of-range indices are
ignored; `totalVotes` is the sum of the counted (in-range) votes;
`percentages[i]` is the half-up rounding of `voteCounts[i]/totalVotes·100`,
computed independently per option when `totalVotes > 0` (characterized below
by the two-sided bound `|100·c/t − p| ≤ 1/2`) and `0` for every option
otherwise; on options `["A","B"]` with votes `[0,0,1]` this yields
`voteCounts = [2,1]`, `totalVotes = 3`, `percentages = [67,33]`. -/
theorem C6_computeResults_tally (options : List String) (votes : List Int) :
    (computeResults options votes).voteCounts.length = options.length ∧
    (∀ i, i < options.length →
      (computeResults options votes).voteCounts.getD i 0 =
        (votes.filter (fun v => v = (i : Int))).length) ∧
    (computeResults options votes).totalVotes =
      (votes.filter (fun v => 0 ≤ v && v < (options.length : Int))).length ∧
    (computeResults options votes).percentages.length = options.length ∧
    ((computeResults options votes).totalVotes = 0 →
      ∀ i, i < options.length →
        (computeResults options votes).percentages.getD i 0 = 0) ∧
    (0 < (computeResults options votes).totalVotes →
      ∀ i, i < options.length →
        2 * (computeResults options votes).totalVotes *
            ((computeResults options votes).percentages.getD i 0) ≤
          200 * ((computeResults options votes).voteCounts.getD i 0) +
            (computeResults options votes).totalVotes ∧
        200 * ((computeResults options votes).voteCounts.getD i 0) ≤
          2 * (computeResults options votes).totalVotes *
            ((computeResults options votes).percentages.getD i 0) +
            (computeResults options votes).totalVotes) ∧
    computeResults ["A", "B"] [0, 0, 1] = ⟨[2, 1], 3, [67, 33]⟩ := by
  obtain ⟨hl, hg, hs⟩ := tally_foldl_spec options.length votes
    (List.replicate options.length 0) (by simp)
  have hcz : ∀ i, i < options.length →
      (List.replicate options.length (0 : Nat)).getD i 0 = 0 := by
    intro i hi
    simp [List.getD]
  have hcounts : (computeResults options votes).voteCounts =
      votes.foldl (tallyStep options.length) (List.replicate options.length 0) :=
    rfl
  have htot : (computeResults options votes).totalVotes =
      (votes.foldl (tallyStep options.length)
        (List.replicate options.length 0)).sum := by
    show List.foldl (fun s c => s + c) 0 _ = _
    exact List.sum_eq_foldl.symm
  have hperc : (computeResults options votes).percentages =
      (votes.foldl (tallyStep options.length)
        (List.replicate options.length 0)).map
        (fun c => if (computeResults options votes).totalVotes > 0 then
          jsRound100 c (computeResults options votes).totalVotes else 0) :=
    rfl
  have hcg : ∀ i, i < options.length →
      (computeResults options votes).voteCounts.getD i 0 =
        (votes.filter (fun v => v = (i : Int))).length := by
    intro i hi
    rw [hcounts, hg i hi, hcz i hi]
    omega
  have htotal : (computeResults options votes).totalVotes =
      (votes.filter (fun v => 0 ≤ v && v < (options.length : Int))).length := by
    rw [htot, hs]
    simp
  have hpg : ∀ i, i < options.length →
      (computeResults options votes).percentages.getD i 0 =
        (if (computeResults options votes).totalVotes > 0 then
          jsRound100 ((computeResults options votes).voteCounts.getD i 0)
            (computeResults options votes).totalVotes else 0) := by
    intro i hi
    have hi2 : i < (votes.foldl (tallyStep options.length)
        (List.replicate options.length 0)).length := by rw [hl]; exact hi
    rw [hperc, hcounts]
    simp [List.getD, List.getElem?_map, List.getElem?_eq_getElem, hi2]
  refine ⟨by rw [hcounts]; exact hl, hcg, htotal, ?_, ?_, ?_, by decide⟩
  · rw [hperc]
    simp only [List.length_map]
    rw [← hcounts]
    rw [show (computeResults options votes).voteCounts.length =
      options.length from hcounts ▸ hl]
  · intro hz i hi
    rw [hpg i hi, hz]
    simp
  · intro hpos i hi
    rw [hpg i hi, if_pos hpos]
    unfold jsRound100
    have hdm := Nat.div_add_mod
      (200 * ((computeResults options votes).voteCounts.getD i 0) +
        (computeResults options votes).totalVotes)
      (2 * (computeResults options votes).totalVotes)
    have hmod := Nat.mod_lt
      (200 * ((computeResults options votes).voteCounts.getD i 0) +
        (computeResults options votes).totalVotes)
      (show 0 < 2 * (computeResults options votes).totalVotes by omega)
    omega

/-- Witness for C6 at the spec's concrete example. -/
theorem C6_witness :
    (computeResults ["A", "B"] [0, 0, 1]).voteCounts.getD 0 0 =
      (([0, 0, 1] : List Int).filter (fun v => v = (0 : Int))).length ∧
    2 * (computeResults ["A", "B"] [0, 0, 1]).totalVotes *
        ((computeResults ["A", "B"] [0, 0, 1]).percentages.getD 0 0) ≤
      200 * ((computeResults ["A", "B"] [0, 0, 1]).voteCounts.getD 0 0) +
        (computeResults ["A", "B"] [0, 0, 1]).totalVotes :=
  ⟨(C6_computeResults_tally ["A", "B"] [0, 0, 1]).2.1 0 (by decide),
   ((C6_computeResults_tally ["A", "B"] [0, 0, 1]).2.2.2.2.2.1 (by decide) 0
     (by decide)).1⟩

/-- **C7.** `requireOwnershipOrAdmin` fails with the authentication-required
error (not access-denied) and performs no owner lookup when the caller is
unauthenticated; succeeds with no owner lookup when the caller is an admin;
otherwise performs exactly one owner lookup and succeeds precisely when the
looked-up owner equals the caller's identity, failing with the
access-denied error otherwise — so exactly the owner and admins are
granted access. -/
theorem C7_requireOwnershipOrAdmin (session : Session) (polls : List Poll)
    (rid : String) :
    ((getSecurityContext session).isAuthenticated = false →
      requireOwnershipOrAdmin session polls rid =
        (.error "Authentication required", 0)) ∧
    ((getSecurityContext session).isAuthenticated = true →
      (getSecurityContext session).isAdmin = true →
      requireOwnershipOrAdmin session polls rid =
        (.ok (getSecurityContext session), 0)) ∧
    ((getSecurityContext session).isAuthenticated = true →
      (getSecurityContext session).isAdmin = false →
      (requireOwnershipOrAdmin session polls rid).2 = 1 ∧
      ((∃ p, findSingle polls (fun p2 => p2.id = rid) = some p ∧
          some p.user_id = (getSecurityContext session).user) →
        (requireOwnershipOrAdmin session polls rid).1 =
          .ok (getSecurityContext session)) ∧
      (¬(∃ p, findSingle polls (fun p2 => p2.id = rid) = some p ∧
          some p.user_id = (getSecurityContext session).user) →
        (requireOwnershipOrAdmin session polls rid).1 =
          .error "Access denied: You can only access your own resources")) ∧
    ((∃ c, (requireOwnershipOrAdmin session polls rid).1 = .ok c) ↔
      ((getSecurityContext session).isAuthenticated = true ∧
       ((getSecurityContext session).isAdmin = true ∨
        ∃ p, findSingle polls (fun p2 => p2.id = rid) = some p ∧
          some p.user_id = (getSecurityContext session).user))) := by
  cases session with
  | none =>
    refine ⟨fun _ => rfl, by simp [getSecurityContext], by simp [getSecurityContext], ?_⟩
    constructor
    · rintro ⟨c, hc⟩
      simp [requireOwnershipOrAdmin, getSecurityContext] at hc
    · rintro ⟨h, _⟩
      simp [getSecurityContext] at h
  | some su =>
    obtain ⟨uid, metaRole⟩ := su
    have huser : (getSecurityContext (some (uid, metaRole))).user = some uid := by
      simp [getSecurityContext]
    have hauth : (getSecurityContext (some (uid, metaRole))).isAuthenticated
        = true := by simp [getSecurityContext]
    by_cases hadm : (getSecurityContext (some (uid, metaRole))).isAdmin = true
    · refine ⟨by simp [hauth], fun _ _ => ?_, by simp [hadm], ?_⟩
      · simp only [requireOwnershipOrAdmin, hauth, hadm]
        rfl
      · constructor
        · intro _
          exact ⟨hauth, Or.inl hadm⟩
        · intro _
          exact ⟨getSecurityContext (some (uid, metaRole)), by
            simp only [requireOwnershipOrAdmin, hauth, hadm]
            rfl⟩
    · have hadm2 : (getSecurityContext (some (uid, metaRole))).isAdmin = false :=
        by simpa using hadm
      have hvo : verifyOwnership polls rid
          ((getSecurityContext (some (uid, metaRole))).user.getD "") = true ↔
          (∃ p, findSingle polls (fun p2 => p2.id = rid) = some p ∧
            some p.user_id = (getSecurityContext (some (uid, metaRole))).user) := by
        rw [huser]
        simp only [Option.getD_some]
        unfold verifyOwnership
        cases hf : findSingle polls (fun p2 => p2.id = rid) with
        | none => simp
        | some p =>
          simp only [Option.some_inj]
          constructor
          · intro he
            exact ⟨p, rfl, by simpa using congrArg some (by exact_mod_cast
              (by simpa using he : p.user_id = uid))⟩
          · rintro ⟨p2, hp2, he2⟩
            subst hp2
            simp [he2]
      by_cases hown : verifyOwnership polls rid
          ((getSecurityContext (some (uid, metaRole))).user.getD "") = true
      · have hres : requireOwnershipOrAdmin (some (uid, metaRole)) polls rid =
            (.ok (getSecurityContext (some (uid, metaRole))), 1) := by
          simp only [requireOwnershipOrAdmin, hauth, hadm2, hown]
          rfl
        refine ⟨by simp [hauth], by simp [hadm2], fun _ _ => ?_, ?_⟩
        · exact ⟨by rw [hres], fun _ => by rw [hres], fun hc => absurd (hvo.mp hown) hc⟩
        · constructor
          · intro _
            exact ⟨hauth, Or.inr (hvo.mp hown)⟩
          · intro _
            exact ⟨_, by rw [hres]⟩
      · have hown2 : verifyOwnership polls rid
            ((getSecurityContext (some (uid, metaRole))).user.getD "") = false :=
          by simpa using hown
        have hres : requireOwnershipOrAdmin (some (uid, metaRole)) polls rid =
            (.error "Access denied: You can only access your own resources", 1) := by
          simp only [requireOwnershipOrAdmin, hauth, hadm2, hown2]
          rfl
        refine ⟨by simp [hauth], by simp [hadm2], fun _ _ => ?_, ?_⟩
        · refine ⟨by rw [hres], fun hex => absurd (hvo.mpr hex) (by simp [hown2]),
            fun _ => by rw [hres]⟩
        · constructor
          · rintro ⟨c, hc⟩
            rw [hres] at hc
            exact absurd hc (by simp)
          · rintro ⟨_, hor⟩
            rcases hor with h | hex
            · exact absurd h (by simp [hadm2])
            · exact absurd (hvo.mpr hex) (by simp [hown2])

/-- Witness for C7: an unauthenticated caller gets the auth-required error
with no lookup; an authenticated non-admin owner is granted with one lookup. -/
theorem C7_witness :
    requireOwnershipOrAdmin none [] "x" = (.error "Authentication required", 0) ∧
    (requireOwnershipOrAdmin (some ("u1", none))
      [⟨"p1", "u1", "Q", ["A", "B"]⟩] "p1").2 = 1 :=
  ⟨(C7_requireOwnershipOrAdmin none [] "x").1 (by decide),
   ((C7_requireOwnershipOrAdmin (some ("u1", none))
      [⟨"p1", "u1", "Q", ["A", "B"]⟩] "p1").2.2.1 (by decide) (by decide)).1⟩

/-- **C8.** `hasPermission` returns false for every unauthenticated context;
for authenticated contexts (whose role is present, as `getSecurityContext`
guarantees) it returns true iff the context holds `admin:access`, or some
held permission exactly equals the action, or some held permission starts
with the action's segment before the first `:` followed by `:` — in
particular holding `read:own` satisfies any action whose first segment is
`read`. -/
theorem C8_hasPermission (context : SecurityContext) (action : String) :
    (context.isAuthenticated = false → hasPermission context action = false) ∧
    (context.isAuthenticated = true →
      ∀ role, context.role = some role →
      (hasPermission context action = true ↔
        ("admin:access" ∈ role.permissions ∨
         ∃ p ∈ role.permissions, p = action ∨
           (action.data.takeWhile (fun c => c ≠ ':')) ++ [':'] <+: p.data))) ∧
    (context.isAuthenticated = true →
      ∀ role, context.role = some role → "read:own" ∈ role.permissions →
      action.data.takeWhile (fun c => c ≠ ':') = "read".data →
      hasPermission context action = true) := by
  have hmain : context.isAuthenticated = true →
      ∀ role, context.role = some role →
      (hasPermission context action = true ↔
        ("admin:access" ∈ role.permissions ∨
         ∃ p ∈ role.permissions, p = action ∨
           (action.data.takeWhile (fun c => c ≠ ':')) ++ [':'] <+: p.data)) := by
    intro h role hrole
    simp only [hasPermission, h, hrole, Bool.not_true, Bool.false_eq_true,
      if_false, Option.getD_some]
    by_cases hadmin : "admin:access" ∈ role.permissions
    · simp [hadmin]
    · have hcont : role.permissions.contains "admin:access" = false := by
        simpa using hadmin
      simp only [hcont, Bool.false_eq_true, if_false]
      rw [List.any_eq_true]
      constructor
      · rintro ⟨p, hp, hor⟩
        refine Or.inr ⟨p, hp, ?_⟩
        rcases Bool.or_eq_true_iff.mp hor with h1 | h2
        · exact Or.inl (by simpa using h1)
        · exact Or.inr ( List.isPrefixOf_iff_prefix.mp h2)
      · rintro (h1 | ⟨p, hp, hor⟩)
        · exact absurd h1 hadmin
        · refine ⟨p, hp, Bool.or_eq_true_iff.mpr ?_⟩
          rcases hor with h1 | h2
          · exact Or.inl (by simpa using h1)
          · exact Or.inr ( List.isPrefixOf_iff_prefix.mpr h2)
  refine ⟨?_, hmain, ?_⟩
  · intro h
    simp [hasPermission, h]
  · intro h role hrole hmem hpre
    refine (hmain h role hrole).mpr (Or.inr ⟨"read:own", hmem, Or.inr ?_⟩)
    rw [hpre]
    decide

/-- Witness for C8: an unauthenticated context is refused; a plain user
context holding `read:own` passes a `read:all` check; an admin context
passes via `admin:access`. -/
theorem C8_witness :
    hasPermission ⟨none, none, false, false⟩ "read:all" = false ∧
    hasPermission (getSecurityContext (some ("u1", none))) "read:all" = true ∧
    hasPermission (getSecurityContext (some ("u1", some "admin"))) "delete:any"
      = true :=
  ⟨(C8_hasPermission ⟨none, none, false, false⟩ "read:all").1 rfl,
   (C8_hasPermission (getSecurityContext (some ("u1", none))) "read:all").2.2
     rfl ⟨"user", ["read:own", "write:own", "delete:own"]⟩ rfl (by decide)
     (by decide),
   ((C8_hasPermission (getSecurityContext (some ("u1", some "admin")))
      "delete:any").2.1 rfl
      ⟨"admin", ["read:all", "write:all", "delete:all", "admin:access"]⟩
      rfl).mpr (Or.inl (by decide))⟩

set_option maxRecDepth 16384 in
/-- **C9.** The poll validator aggregates: it accepts (returning the whole
normalized value) iff no rule is violated, otherwise fails with a single
error joining all collected issue messages; each violated rule's message is
in the collected issues (not just the first); in particular an input with an
over-200-character option and duplicate options reports both violations. -/
theorem C9_validator_aggregates (d : PollInput) :
    (validatePollData d = .ok d ↔ pollIssues d = []) ∧
    (pollIssues d ≠ [] →
      validatePollData d = .error (String.intercalate ", " (pollIssues d))) ∧
    (d.question.length < 1 → "Question is required" ∈ pollIssues d) ∧
    (d.question.length > 500 →
      "Question must be less than 500 characters" ∈ pollIssues d) ∧
    (xssTest d.question = true →
      "Question contains potentially malicious content" ∈ pollIssues d) ∧
    (d.options.length < 2 → "At least 2 options are required" ∈ pollIssues d) ∧
    (d.options.length > 10 → "Maximum 10 options allowed" ∈ pollIssues d) ∧
    (∀ o ∈ d.options, o.length < 1 → "Option cannot be empty" ∈ pollIssues d) ∧
    (∀ o ∈ d.options, o.length > 200 →
      "Option must be less than 200 characters" ∈ pollIssues d) ∧
    (∀ o ∈ d.options, xssTest o = true →
      "Option contains potentially malicious content" ∈ pollIssues d) ∧
    (¬ d.options.Nodup → "Options must be unique" ∈ pollIssues d) ∧
    validatePollData ⟨"Q?", [String.mk (List.replicate 201 'a'), "b", "b"]⟩ =
      .error "Option must be less than 200 characters, Options must be unique" := by
  refine ⟨validatePollData_ok_iff d, ?_, mem_pollIssues_qreq d,
    mem_pollIssues_qlong d, mem_pollIssues_qxss d, mem_pollIssues_few d,
    mem_pollIssues_many d, fun o ho h => mem_pollIssues_oempty d o ho h,
    fun o ho h => mem_pollIssues_olong d o ho h,
    fun o ho h => mem_pollIssues_oxss d o ho h, mem_pollIssues_dup d, ?_⟩
  · intro h
    simp [validatePollData, h]
  · decide

/-- Witness for C9 at a concrete invalid input: a duplicate pair of options
with one of them empty reports both "Option cannot be empty" and "Options
must be unique". -/
theorem C9_witness :
    "Option cannot be empty" ∈ pollIssues ⟨"Q?", ["", "", "b"]⟩ ∧
    "Options must be unique" ∈ pollIssues ⟨"Q?", ["", "", "b"]⟩ ∧
    validatePollData ⟨"Q?", ["", "", "b"]⟩ =
      .error (String.intercalate ", " (pollIssues ⟨"Q?", ["", "", "b"]⟩)) :=
  ⟨(C9_validator_aggregates ⟨"Q?", ["", "", "b"]⟩).2.2.2.2.2.2.2.1 ""
     (by decide) (by decide),
   (C9_validator_aggregates ⟨"Q?", ["", "", "b"]⟩).2.2.2.2.2.2.2.2.2.2.1
     (by decide),
   (C9_validator_aggregates ⟨"Q?", ["", "", "b"]⟩).2.1 (by decide)⟩

/-- **C10.** `getPollByIdForEdit` runs the ownership/admin guard before the
UUID shape check: on a malformed id an unauthenticated caller gets the
authentication-required error and an authenticated non-owner non-admin
caller gets the access-denied error, never "Invalid poll ID format" —
whereas `deletePoll`, and `updatePoll` once its CSRF check passes, reject a
malformed id before any authorization check, for every session. -/
theorem C10_guard_order (id : String) (hid : isUUID id = false)
    (polls : List Poll) :
    getPollByIdForEdit none polls id =
      (none, some "Authentication required") ∧
    (∀ uid mr, (getSecurityContext (some (uid, mr))).isAdmin = false →
      (∀ p, findSingle polls (fun p2 => p2.id = id) = some p →
        p.user_id ≠ uid) →
      getPollByIdForEdit (some (uid, mr)) polls id =
        (none, some "Access denied: You can only access your own resources")) ∧
    (∀ session votes,
      (deletePoll session id polls votes).error =
        some "Invalid poll ID format") ∧
    (∀ session question options,
      (updatePoll true session id question options polls).1 =
        some "Invalid poll ID format") := by
  refine ⟨?_, ?_, ?_, ?_⟩
  · simp [getPollByIdForEdit, requireOwnershipOrAdmin, getSecurityContext]
  · intro uid mr hadm hown
    have hauth : (getSecurityContext (some (uid, mr))).isAuthenticated = true :=
      by simp [getSecurityContext]
    have huser : (getSecurityContext (some (uid, mr))).user = some uid := by
      simp [getSecurityContext]
    have hvo : verifyOwnership polls id
        ((getSecurityContext (some (uid, mr))).user.getD "") = false := by
      rw [huser]
      simp only [Option.getD_some]
      unfold verifyOwnership
      cases hf : findSingle polls (fun p2 => p2.id = id) with
      | none => rfl
      | some p => simpa using hown p hf
    have hres : requireOwnershipOrAdmin (some (uid, mr)) polls id =
        (.error "Access denied: You can only access your own resources", 1) := by
      simp only [requireOwnershipOrAdmin, hauth, hadm, hvo]
      rfl
    simp [getPollByIdForEdit, hres]
  · intro session votes
    simp [deletePoll, hid]
  · intro session question options
    simp [updatePoll, hid]

/-- Witness for C10 at the malformed id `"zzz"`: the edit path reports the
auth failure for an anonymous caller and the access failure for a stranger,
while the delete and update paths report the malformed id. -/
theorem C10_witness :
    getPollByIdForEdit none [] "zzz" = (none, some "Authentication required") ∧
    getPollByIdForEdit (some ("u2", none)) [] "zzz" =
      (none, some "Access denied: You can only access your own resources") ∧
    (deletePoll none "zzz" [] []).error = some "Invalid poll ID format" ∧
    (updatePoll true none "zzz" none [] []).1 = some "Invalid poll ID format" :=
  ⟨(C10_guard_order "zzz" (by decide) []).1,
   (C10_guard_order "zzz" (by decide) []).2.1 "u2" none (by decide)
     (fun p hp => by simp [findSingle] at hp),
   (C10_guard_order "zzz" (by decide) []).2.2.1 none [],
   (C10_guard_order "zzz" (by decide) []).2.2.2 none none []⟩

/-- **C2 (counterexample).** The vote rate-limit key is not
`callerIdentity ?? callerAddress ?? "anonymous"`: the code keys by the
caller address even when an authenticated identity is present.  With an
authenticated caller `"user-1"` at address `"9.9.9.9"` the code key differs
from the spec key, and a map saturated only under the address key makes the
call fail `RateLimited` although the identity key is untouched. -/
theorem C2_counterexample :
    voteRateIdentifier (some "9.9.9.9") ≠
      specVoteRateIdentifier (some "user-1") (some "9.9.9.9") ∧
    (submitVote "11111111-1111-4111-8111-111111111111" 0 (some "9.9.9.9")
      (some "user-1")
      [⟨"11111111-1111-4111-8111-111111111111", "owner", "Q?", ["A", "B"]⟩] []
      0 (fun k => if k = "vote_9.9.9.9" then some ⟨10, 60000⟩ else none)).error
      = some "Rate limit exceeded. Please wait 60 seconds before voting again." ∧
    (fun k => if k = "vote_9.9.9.9" then some (⟨10, 60000⟩ : RLEntry) else none)
      ("vote_" ++ specVoteRateIdentifier (some "user-1") (some "9.9.9.9"))
      = none :=
  ⟨by decide, by decide, by decide⟩

/-- **C2 (amended).** The rate-limit check of `submitVote` is keyed by the
caller address when present and non-empty, falling back to the literal
`"anonymous"` otherwise (`clientIP || "anonymous"`); the caller's
authenticated identity is never consulted (the outcome is the same for
every `user`); when the limit is exceeded the call fails with the
rate-limited error carrying the ceiling of seconds until the stored reset
time. -/
theorem C2_amended (pollId : String) (optionIndex : Int)
    (clientIP : Option String) (polls : List Poll) (votes : List Vote)
    (now : Nat) (m : RLMap)
    (hblocked : (checkRateLimit ("vote_" ++ voteRateIdentifier clientIP)
      10 60000 now m).1.allowed = false) :
    (∀ user, (submitVote pollId optionIndex clientIP user polls votes now m).error
      = some ("Rate limit exceeded. Please wait " ++
          toString (((checkRateLimit ("vote_" ++ voteRateIdentifier clientIP)
            10 60000 now m).1.resetTime - now + 999) / 1000) ++
          " seconds before voting again.")) ∧
    voteRateIdentifier none = "anonymous" ∧
    voteRateIdentifier (some "") = "anonymous" ∧
    (∀ a, a ≠ "" → voteRateIdentifier (some a) = a) := by
  refine ⟨?_, rfl, rfl, ?_⟩
  · intro user
    simp only [submitVote, hblocked, Bool.not_false, if_true]
  · intro a ha
    simp [voteRateIdentifier, jsOr, ha]

/-- Witness for C2's amended theorem: with the address key saturated, the
call is refused with a 60-second retry hint regardless of identity. -/
theorem C2_witness :
    (submitVote "x" 0 (some "9.9.9.9") none [] [] 0
      (fun k => if k = "vote_9.9.9.9" then some ⟨10, 60000⟩ else none)).error =
      some "Rate limit exceeded. Please wait 60 seconds before voting again." :=
  ((C2_amended "x" 0 (some "9.9.9.9") [] [] 0
      (fun k => if k = "vote_9.9.9.9" then some ⟨10, 60000⟩ else none)
      (by decide)).1 none).trans (by decide)

/-- **C4 (counterexample).** A validated input need not yield a stored poll
with distinct options or a non-empty question: question `"<"` and options
`["a<", "a>"]` pass validation (no XSS signature, distinct, in bounds), yet
`createPoll` persists question `""` and options `["a", "a"]` — sanitization
collapses distinctness and empties the question. -/
theorem C4_counterexample :
    pollIssues ⟨"<", ["a<", "a>"]⟩ = [] ∧
    (createPoll true (some "1.1.1.1") (some ("u1", none)) (some "<")
      ["a<", "a>"] "p1" [] 0 (fun _ => none)).error = none ∧
    (createPoll true (some "1.1.1.1") (some ("u1", none)) (some "<")
      ["a<", "a>"] "p1" [] 0 (fun _ => none)).data =
      some ⟨"p1", "u1", "", ["a", "a"]⟩ ∧
    ¬ (["a", "a"] : List String).Nodup ∧ ("" : String).length = 0 :=
  ⟨by decide, by decide, by decide, by decide, by decide⟩

/-- **C4 (amended).** For every input that passes poll validation (with CSRF
valid, the rate limit not exceeded, and an authenticated caller),
`createPoll` succeeds and persists exactly the sanitization of the validated
input: the stored options preserve input order (entry `i` is the
sanitization of validated entry `i`), their number is the validated one and
lies in `[2,10]`, and the validated input itself has a non-empty question
and pairwise-distinct options — but distinctness and non-emptiness are
guaranteed only before sanitization, not for the stored strings (see the
counterexample). -/
theorem C4_createPoll_of_valid (clientIP : Option String) (uid : String)
    (mr : Option String) (q : String) (options : List String) (newId : String)
    (polls : List Poll) (now : Nat) (m : RLMap)
    (hrate : (checkRateLimit ("create_poll_" ++ jsOr clientIP "unknown")
      5 60000 now m).1.allowed = true)
    (hvalid : pollIssues ⟨q, options.filter (fun o => o ≠ "")⟩ = []) :
    (createPoll true clientIP (some (uid, mr)) (some q) options newId polls
      now m).error = none ∧
    (createPoll true clientIP (some (uid, mr)) (some q) options newId polls
      now m).data = some ⟨newId, uid, sanitizeString q,
        (options.filter (fun o => o ≠ "")).map sanitizeString⟩ ∧
    (createPoll true clientIP (some (uid, mr)) (some q) options newId polls
      now m).polls = polls ++ [⟨newId, uid, sanitizeString q,
        (options.filter (fun o => o ≠ "")).map sanitizeString⟩] ∧
    2 ≤ (options.filter (fun o => o ≠ "")).length ∧
    (options.filter (fun o => o ≠ "")).length ≤ 10 ∧
    ((options.filter (fun o => o ≠ "")).map sanitizeString).length =
      (options.filter (fun o => o ≠ "")).length ∧
    (∀ i, i < (options.filter (fun o => o ≠ "")).length →
      ((options.filter (fun o => o ≠ "")).map sanitizeString).getD i "" =
        sanitizeString ((options.filter (fun o => o ≠ "")).getD i "")) ∧
    (options.filter (fun o => o ≠ "")).Nodup ∧ 1 ≤ q.length := by
  obtain ⟨hq0, ho0, ho1, hnd0⟩ := pollIssues_nil_facts _ hvalid
  have hq1 : 1 ≤ q.length := hq0
  have ho2 : 2 ≤ (options.filter (fun o => o ≠ "")).length := ho0
  have ho10 : (options.filter (fun o => o ≠ "")).length ≤ 10 := ho1
  have hnd : (options.filter (fun o => o ≠ "")).Nodup := hnd0
  have hqne : ¬ q = "" := by
    intro hc
    rw [hc] at hq1
    simp at hq1
  have hrun : createPoll true clientIP (some (uid, mr)) (some q) options newId
      polls now m = ⟨none, some ⟨newId, uid, sanitizeString q,
        (options.filter (fun o => o ≠ "")).map sanitizeString⟩,
        polls ++ [⟨newId, uid, sanitizeString q,
          (options.filter (fun o => o ≠ "")).map sanitizeString⟩],
        (checkRateLimit ("create_poll_" ++ jsOr clientIP "unknown")
          5 60000 now m).2⟩ := by
    have hauth : requireAuth (some (uid, mr)) =
        .ok (getSecurityContext (some (uid, mr))) := by
      simp [requireAuth, getSecurityContext]
    have hval : validatePollData ⟨q, options.filter (fun o => o ≠ "")⟩ =
        .ok ⟨q, options.filter (fun o => o ≠ "")⟩ :=
      (validatePollData_ok_iff _).mpr hvalid
    have hguard : ¬(q = "" ∨ (options.filter (fun o => o ≠ "")).length < 2) := by
      push_neg
      exact ⟨hqne, by omega⟩
    simp only [createPoll, hrate, Bool.not_true, Bool.false_eq_true, if_false,
      hauth]
    rw [if_neg (by simpa using hguard)]
    simp only [Option.getD_some]
    rw [hval]
    have huid : (getSecurityContext (some (uid, mr))).user.getD "" = uid := by
      simp [getSecurityContext]
    simp [sanitizePollData, huid]
  refine ⟨by rw [hrun], by rw [hrun], by rw [hrun], ho2, ho10, by simp, ?_,
    hnd, hq1⟩
  intro i hi
  have hi2 : i < (options.filter (fun o => !decide (o = ""))).length := by
    simpa using hi
  simp [List.getD, List.getElem?_map, List.getElem?_eq_getElem, hi2]

/-- Witness for C4's amended theorem at a concrete valid creation. -/
theorem C4_witness :
    (createPoll true (some "1.1.1.1") (some ("u1", none)) (some "Q?")
      ["A", "B"] "p1" [] 0 (fun _ => none)).error = none ∧
    (createPoll true (some "1.1.1.1") (some ("u1", none)) (some "Q?")
      ["A", "B"] "p1" [] 0 (fun _ => none)).data =
      some ⟨"p1", "u1", sanitizeString "Q?",
        ((["A", "B"] : List String).filter (fun o => o ≠ "")).map
          sanitizeString⟩ :=
  ⟨(C4_createPoll_of_valid (some "1.1.1.1") "u1" none "Q?" ["A", "B"] "p1" []
      0 (fun _ => none) (by decide) (by decide)).1,
   (C4_createPoll_of_valid (some "1.1.1.1") "u1" none "Q?" ["A", "B"] "p1" []
      0 (fun _ => none) (by decide) (by decide)).2.1⟩

/-- **C1.** `submitVote` enforces at most one vote per `(pollId, voterKey)`
independently in the authenticated and anonymous key spaces: starting from a
store with no vote under the relevant key, (a) a second authenticated vote
by the same identity on the same poll fails with the duplicate error, (b) a
second anonymous vote from the same address fails with the (differently
worded, UX-only) duplicate error, and (c) an authenticated vote and an
anonymous vote from a different address on the same poll both succeed. -/
theorem C1_submitVote_dedup (poll : Poll) (polls : List Poll)
    (votes : List Vote)
    (hpoll : findSingle polls (fun p => p.id = poll.id) = some poll)
    (huuid : isUUID poll.id = true) :
    (∀ uid idx1 idx2 ip1 ip2 now1 now2 m1 m2,
      (checkRateLimit ("vote_" ++ voteRateIdentifier ip1) 10 60000 now1
        m1).1.allowed = true →
      (checkRateLimit ("vote_" ++ voteRateIdentifier ip2) 10 60000 now2
        m2).1.allowed = true →
      0 ≤ idx1 → idx1 < (poll.options.length : Int) →
      0 ≤ idx2 → idx2 < (poll.options.length : Int) →
      votes.filter (fun v => v.poll_id = poll.id && v.user_id = some uid)
        = [] →
      (submitVote poll.id idx1 ip1 (some uid) polls votes now1 m1).error
        = none ∧
      (submitVote poll.id idx2 ip2 (some uid) polls
        (submitVote poll.id idx1 ip1 (some uid) polls votes now1 m1).votes
        now2 m2).error = some "You have already voted on this poll") ∧
    (∀ addr idx1 idx2 now1 now2 m1 m2,
      (checkRateLimit ("vote_" ++ voteRateIdentifier (some addr)) 10 60000
        now1 m1).1.allowed = true →
      (checkRateLimit ("vote_" ++ voteRateIdentifier (some addr)) 10 60000
        now2 m2).1.allowed = true →
      0 ≤ idx1 → idx1 < (poll.options.length : Int) →
      0 ≤ idx2 → idx2 < (poll.options.length : Int) →
      votes.filter (fun v => v.poll_id = poll.id && v.ip_address = some addr)
        = [] →
      (submitVote poll.id idx1 (some addr) none polls votes now1 m1).error
        = none ∧
      (submitVote poll.id idx2 (some addr) none polls
        (submitVote poll.id idx1 (some addr) none polls votes now1 m1).votes
        now2 m2).error
        = some "You have already voted on this poll from this device") ∧
    (∀ uid idx1 idx2 ip1 addr2 now1 now2 m1 m2,
      (checkRateLimit ("vote_" ++ voteRateIdentifier ip1) 10 60000 now1
        m1).1.allowed = true →
      (checkRateLimit ("vote_" ++ voteRateIdentifier (some addr2)) 10 60000
        now2 m2).1.allowed = true →
      0 ≤ idx1 → idx1 < (poll.options.length : Int) →
      0 ≤ idx2 → idx2 < (poll.options.length : Int) →
      some addr2 ≠ ip1 →
      votes.filter (fun v => v.poll_id = poll.id && v.user_id = some uid)
        = [] →
      votes.filter (fun v => v.poll_id = poll.id && v.ip_address = some addr2)
        = [] →
      (submitVote poll.id idx1 ip1 (some uid) polls votes now1 m1).error
        = none ∧
      (submitVote poll.id idx2 (some addr2) none polls
        (submitVote poll.id idx1 ip1 (some uid) polls votes now1 m1).votes
        now2 m2).error = none) := by
  refine ⟨?_, ?_, ?_⟩
  · intro uid idx1 idx2 ip1 ip2 now1 now2 m1 m2 hr1 hr2 h01 hl1 h02 hl2 hfil
    obtain ⟨hins, _⟩ := submitVote_auth_run poll polls votes uid idx1 ip1 now1
      m1 hpoll huuid hr1 h01 hl1
    have h1 := hins hfil
    refine ⟨by rw [h1], ?_⟩
    rw [h1]
    obtain ⟨_, hdup2⟩ := submitVote_auth_run poll polls
      (votes ++ [⟨poll.id, some uid, idx1, ip1⟩]) uid idx2 ip2 now2 m2 hpoll
      huuid hr2 h02 hl2
    have hfil2 : (votes ++ [(⟨poll.id, some uid, idx1, ip1⟩ : Vote)]).filter
        (fun v => v.poll_id = poll.id && v.user_id = some uid)
        = [(⟨poll.id, some uid, idx1, ip1⟩ : Vote)] := by
      rw [List.filter_append, hfil]
      simp
    rw [hdup2 _ hfil2]
  · intro addr idx1 idx2 now1 now2 m1 m2 hr1 hr2 h01 hl1 h02 hl2 hfil
    obtain ⟨hins, _⟩ := submitVote_anon_run poll polls votes idx1 (some addr)
      now1 m1 hpoll huuid hr1 h01 hl1
    have h1 := hins hfil
    refine ⟨by rw [h1], ?_⟩
    rw [h1]
    obtain ⟨_, hdup2⟩ := submitVote_anon_run poll polls
      (votes ++ [⟨poll.id, none, idx1, some addr⟩]) idx2 (some addr) now2 m2
      hpoll huuid hr2 h02 hl2
    have hfil2 : (votes ++ [(⟨poll.id, none, idx1, some addr⟩ : Vote)]).filter
        (fun v => v.poll_id = poll.id && v.ip_address = some addr)
        = [(⟨poll.id, none, idx1, some addr⟩ : Vote)] := by
      rw [List.filter_append, hfil]
      simp
    rw [hdup2 _ hfil2]
  · intro uid idx1 idx2 ip1 addr2 now1 now2 m1 m2 hr1 hr2 h01 hl1 h02 hl2 hne
      hfilA hfilB
    obtain ⟨hins, _⟩ := submitVote_auth_run poll polls votes uid idx1 ip1 now1
      m1 hpoll huuid hr1 h01 hl1
    have h1 := hins hfilA
    refine ⟨by rw [h1], ?_⟩
    rw [h1]
    obtain ⟨hins2, _⟩ := submitVote_anon_run poll polls
      (votes ++ [⟨poll.id, some uid, idx1, ip1⟩]) idx2 (some addr2) now2 m2
      hpoll huuid hr2 h02 hl2
    have hfil2 : (votes ++ [(⟨poll.id, some uid, idx1, ip1⟩ : Vote)]).filter
        (fun v => v.poll_id = poll.id && v.ip_address = some addr2) = [] := by
      rw [List.filter_append, hfilB]
      simp
      exact fun hc => hne (by rw [hc])
    rw [hins2 hfil2]

/-- Witness for C1 at a concrete poll, identity and addresses: the first
authenticated vote succeeds and the second is refused as a duplicate. -/
theorem C1_witness :
    (submitVote "11111111-1111-4111-8111-111111111111" 0 (some "1.1.1.1")
      (some "u1")
      [⟨"11111111-1111-4111-8111-111111111111", "o1", "Q?", ["A", "B"]⟩] []
      0 (fun _ => none)).error = none ∧
    (submitVote "11111111-1111-4111-8111-111111111111" 1 (some "2.2.2.2")
      (some "u1")
      [⟨"11111111-1111-4111-8111-111111111111", "o1", "Q?", ["A", "B"]⟩]
      (submitVote "11111111-1111-4111-8111-111111111111" 0 (some "1.1.1.1")
        (some "u1")
        [⟨"11111111-1111-4111-8111-111111111111", "o1", "Q?", ["A", "B"]⟩] []
        0 (fun _ => none)).votes
      5 (fun _ => none)).error = some "You have already voted on this poll" :=
  (C1_submitVote_dedup
    ⟨"11111111-1111-4111-8111-111111111111", "o1", "Q?", ["A", "B"]⟩
    [⟨"11111111-1111-4111-8111-111111111111", "o1", "Q?", ["A", "B"]⟩] []
    (by decide) (by decide)).1 "u1" 0 1 (some "1.1.1.1") (some "2.2.2.2") 0 5
    (fun _ => none) (fun _ => none) (by decide) (by decide) (by decide)
    (by decide) (by decide) (by decide) (by decide)

/-- Witness for C5 at `N = 2`, `windowMs = 1000`, an empty map and concrete
call times: the first call allows with remaining 1; a saturated entry is
refused within the window; the third call within the window (after a fresh
first call and one more) is refused. -/
theorem C5_witness :
    checkRateLimit "k" 2 1000 0 (fun _ => none) =
      (⟨true, 1, 1000⟩, rlSet (fun _ => none) "k" ⟨1, 1000⟩) ∧
    checkRateLimit "k" 2 1000 500 (rlSet (fun _ => none) "k" ⟨2, 1000⟩) =
      (⟨false, 0, 1000⟩, rlSet (fun _ => none) "k" ⟨2, 1000⟩) ∧
    (checkRateLimit "k" 2 1000 900
      (rlCalls "k" 2 1000 (checkRateLimit "k" 2 1000 0 (fun _ => none)).2
        [100])).1.allowed = false := by
  refine ⟨?_, ?_, ?_⟩
  · exact (C5_checkRateLimit_fixed_window "k" 2 1000 0 (fun _ => none)).1
      (Or.inl rfl)
  · exact (C5_checkRateLimit_fixed_window "k" 2 1000 500
      (rlSet (fun _ => none) "k" ⟨2, 1000⟩)).2.1 ⟨2, 1000⟩ (by simp [rlSet])
      (by decide) (by decide)
  · exact (C5_checkRateLimit_fixed_window "k" 2 1000 0 (fun _ => none)).2.2.2
      [100] 900 rfl rfl (by decide) (by decide)

end Polly
